import Mathlib

/-!
Shallow embedding of the reconciliation and fan-out core of the luma backend:
the Gmail push-notification webhook handler, the watch-registration route,
the push-notification decoder, and the SSE fan-out hub.

Modelling conventions:
* the provider-issued historyId cursor is an opaque monotonic value, modelled
  as `Nat` (the reference provider issues numeric cursors);
* the Identity Store (a MongoDB `User` collection keyed by unique email) is an
  association list `List (String × UserRec)`;
* remote collaborators (history listing, message fetch, watch registration)
  are parameters of the handlers: a `HistoryResult` models the three outcomes
  of the history call (normal delta, 404-staleness mapped to `null`, other
  error rethrown), an `Option Email` models a message fetch that may throw,
  an `Option RegResult` models a watch registration that may throw;
* handler outcomes carry, besides the updated store, a trace of the events
  passed to the fan-out hub and of the remote calls made, so that frame
  conditions (no fetch attempted, no event sent) are stateable.
-/

namespace Luma

/-- One row of the Identity Store (the mongoose `User` schema): credentials
plus the watch fields.  `lastHistoryId` and `watchExpiration` are absent
until first set, hence `Option`. -/
structure UserRec where
  googleAccessToken : String
  googleRefreshToken : String
  lastHistoryId : Option Nat
  watchExpiration : Option Nat
deriving Repr, DecidableEq

/-- The Identity Store: email-keyed rows, emails unique. -/
abbrev IdentityStore := List (String × UserRec)

/-- `User.findOne(\x7b email \x7d)`: first row whose key matches. -/
def findUser (store : IdentityStore) (email : String) : Option UserRec :=
  match store with
  | [] => none
  | (e, u) :: rest => if e = email then some u else findUser rest email

/-- `User.updateOne(\x7b email \x7d, \x7b lastHistoryId \x7d)`: set the cursor on the
first (unique) matching row, leaving every other row and field unchanged;
a no-op when no row matches. -/
def setLastHistoryId : IdentityStore → String → Nat → IdentityStore
  | [], _, _ => []
  | (e, u) :: rest, email, hid =>
    if e = email then (e, { u with lastHistoryId := some hid }) :: rest
    else (e, u) :: setLastHistoryId rest email hid

/-- `User.findOneAndUpdate(\x7b email \x7d, \x7b watchExpiration, lastHistoryId \x7d)`
after a successful watch registration: updates the first (unique) matching
row; a no-op when no row matches. -/
def setWatch : IdentityStore → String → Nat → Nat → IdentityStore
  | [], _, _, _ => []
  | (e, u) :: rest, email, hid, expiration =>
    if e = email then
      (e, { u with lastHistoryId := some hid, watchExpiration := some expiration }) :: rest
    else (e, u) :: setWatch rest email hid expiration

/-- A message as it appears inside a history record: id plus the optional
`labelIds` array (`msg.message.labelIds` may be absent). -/
structure HistoryMessage where
  id : String
  labelIds : Option (List String)
deriving Repr, DecidableEq

/-- One element of a `messagesAdded` array: a wrapper holding `message`. -/
structure AddedEntry where
  message : HistoryMessage
deriving Repr, DecidableEq

/-- One record of the history delta; `messagesAdded` may be absent. -/
structure HistoryRecord where
  messagesAdded : Option (List AddedEntry)
deriving Repr, DecidableEq

/-- `msg.message.labelIds?.includes('INBOX')`: absent labels never match. -/
def inboxLabeled (msg : HistoryMessage) : Bool :=
  match msg.labelIds with
  | some ls => ls.contains "INBOX"
  | none => false

/-- The ids contributed by one history record: the inner loop of the
extraction pass. -/
def recordNewIds (r : HistoryRecord) : List String :=
  match r.messagesAdded with
  | some entries => (entries.filter (fun e => inboxLabeled e.message)).map (fun e => e.message.id)
  | none => []

/-- The `newMessageIds` accumulation loop of the webhook handler: walk the
delta records in provider order, keeping inbox-labeled added messages. -/
def extractNewMessageIds (records : List HistoryRecord) : List String :=
  (records.map recordNewIds).flatten

/-- Outcome of the `getHistory` collaborator call: a normal delta, the
staleness signal (provider 404 mapped to `null` by `getHistory`), or any
other provider error, which `getHistory` rethrows. -/
inductive HistoryResult where
  | ok (records : List HistoryRecord)
  | stale
  | err
deriving Repr, DecidableEq

/-- A parsed email as returned by the `getEmail` collaborator. -/
structure Email where
  id : String
deriving Repr, DecidableEq

/-- An event handed to the fan-out hub by the webhook handler. -/
inductive SSEEvent where
  | syncRequired
  | emailNew (count : Nat) (emails : List Email)
deriving Repr, DecidableEq

/-- A decoded push notification: target identity and cursor hint. -/
structure GmailNote where
  emailAddress : String
  historyId : Nat
deriving Repr, DecidableEq

/-- What one webhook invocation did: the store afterwards, the events passed
to `sendToUser`, the start cursor passed to `getHistory` (if called), and
the message ids passed to `getEmail`, in call order. -/
structure WebhookOutcome where
  store : IdentityStore
  events : List (String × SSEEvent)
  queriedHistory : Option Nat
  fetched : List String
deriving Repr, DecidableEq

/-- `user.lastHistoryId || historyId`: the stored cursor when present,
otherwise the cursor hint of the triggering notification. -/
def startCursor (stored : Option Nat) (hint : Nat) : Nat :=
  stored.getD hint

/-- The body of the `POST /webhook/gmail` handler after decoding, with the
remote collaborators `getHistory` and `getEmail` as parameters (each takes
the access and refresh tokens, then its own argument).  Mirrors the source:
user lookup, history call with `user.lastHistoryId || historyId` as start,
staleness branch sending `email:sync_required` and returning before the
cursor write, extraction of inbox-labeled added ids, fetch of the first 5
with per-message failures skipped, conditional `email:new` emission, and
the unconditional cursor write at the end of the non-stale path. -/
def webhookGmail (store : IdentityStore)
    (getHistory : String → String → Nat → HistoryResult)
    (getEmail : String → String → String → Option Email)
    (n : GmailNote) : WebhookOutcome :=
  match findUser store n.emailAddress with
  | none => ⟨store, [], none, []⟩
  | some user =>
    let start := startCursor user.lastHistoryId n.historyId
    match getHistory user.googleAccessToken user.googleRefreshToken start with
    | .err => ⟨store, [], some start, []⟩
    | .stale => ⟨store, [(n.emailAddress, .syncRequired)], some start, []⟩
    | .ok records =>
      let newMessageIds := extractNewMessageIds records
      if 0 < newMessageIds.length then
        let toFetch := newMessageIds.take 5
        let newEmails := toFetch.filterMap
          (getEmail user.googleAccessToken user.googleRefreshToken)
        let events :=
          if 0 < newEmails.length then
            [(n.emailAddress, SSEEvent.emailNew newEmails.length newEmails)]
          else []
        ⟨setLastHistoryId store n.emailAddress n.historyId, events, some start, toFetch⟩
      else
        ⟨setLastHistoryId store n.emailAddress n.historyId, [], some start, []⟩

/-- A Gmail-style cumulative change log: entries stamped with the cursor
value at which they were recorded.  `listHistorySince start` returns every
entry recorded strictly after `start`, in log order. -/
def gmailHistorySince (log : List (Nat × HistoryRecord)) (start : Nat) : List HistoryRecord :=
  (log.filter (fun p => start < p.1)).map Prod.snd

/-- A `getHistory` collaborator backed by a cumulative change log. -/
def logHistory (log : List (Nat × HistoryRecord)) : String → String → Nat → HistoryResult :=
  fun _ _ start => .ok (gmailHistorySince log start)

/-! ### Fan-out hub (SSE service) -/

/-- One live SSE connection (a response object): an id distinguishing the
handle, and whether a write on it throws. -/
structure Channel where
  cid : Nat
  writeFails : Bool
deriving Repr, DecidableEq

/-- The process-wide registry `connections`: email to set of live channels.
The JS `Map` has unique keys; the `Set` holds distinct response objects. -/
abbrev Connections := List (String × List Channel)

/-- `connections.get(email)`. -/
def lookupConns (conns : Connections) (email : String) : Option (List Channel) :=
  match conns with
  | [] => none
  | (e, cs) :: rest => if e = email then some cs else lookupConns rest email

/-- The SSE frame written for an event: the same string for every channel. -/
def sseMessage (event data : String) : String :=
  "event: " ++ event ++ "\ndata: " ++ data ++ "\n\n"

/-- Result of one `sendToUser` call: either an exception escaped mid-loop
(no try/catch guards the write loop in the source), or the call returned a
boolean.  `writes` records, in order, the channels whose write completed,
paired with the frame written. -/
inductive SendResult where
  | thrown (writes : List (Nat × String))
  | ret (writes : List (Nat × String)) (value : Bool)
deriving Repr, DecidableEq

/-- The channels a `SendResult` delivered to. -/
def SendResult.delivered : SendResult → List Nat
  | .thrown ws => ws.map Prod.fst
  | .ret ws _ => ws.map Prod.fst

/-- Whether the call returned `true` (as opposed to returning `false` or
propagating an exception). -/
def SendResult.returnedTrue : SendResult → Bool
  | .ret _ true => true
  | _ => false

/-- The `for (const res of userConns) res.write(message)` loop: a throwing
write aborts the loop and the exception escapes `sendToUser`. -/
def writeLoop (message : String) (cs : List Channel) (acc : List (Nat × String)) : SendResult :=
  match cs with
  | [] => .ret acc.reverse true
  | c :: rest =>
    if c.writeFails then .thrown acc.reverse
    else writeLoop message rest ((c.cid, message) :: acc)

/-- `sendToUser(email, event, data)`: look up the identity, return `false`
on a missing or empty channel set, otherwise write the frame to every
channel in order and return `true`. -/
def sendToUser (conns : Connections) (email event data : String) : SendResult :=
  match lookupConns conns email with
  | none => .ret [] false
  | some cs =>
    if cs.length = 0 then .ret [] false
    else writeLoop (sseMessage event data) cs []

/-- State touched by the SSE close handler: the registry plus the set of
channel ids whose keep-alive interval timer is still active. -/
structure SSEState where
  connections : Connections
  timers : List Nat
deriving Repr, DecidableEq

/-- `connections.delete(email)`: removes the (unique) entry under `email`. -/
def removeEntry : Connections → String → Connections
  | [], _ => []
  | (e, cs) :: rest, email =>
    if e = email then rest else (e, cs) :: removeEntry rest email

/-- In-place mutation of the set object held under `email`: replaces the
(unique) entry's channel set. -/
def updateEntry : Connections → String → List Channel → Connections
  | [], _, _ => []
  | (e, cs0) :: rest, email, cs =>
    if e = email then (e, cs) :: rest
    else (e, cs0) :: updateEntry rest email cs

/-- The `req.on('close')` handler: cancel the keep-alive timer, then remove
the channel from its identity's set, dropping the identity's entry when the
set becomes empty; a missing entry is tolerated. -/
def closeChannel (st : SSEState) (email : String) (c : Channel) : SSEState :=
  let timers := st.timers.filter (fun t => t ≠ c.cid)
  match lookupConns st.connections email with
  | none => ⟨st.connections, timers⟩
  | some cs =>
    let cs2 := cs.filter (fun x => x ≠ c)
    if cs2.length = 0 then ⟨removeEntry st.connections email, timers⟩
    else ⟨updateEntry st.connections email cs2, timers⟩

/-! ### Watch registration (`POST /auth/watch`) -/

/-- What a successful `registerGmailWatch` returns. -/
structure RegResult where
  historyId : Nat
  expiration : Nat
deriving Repr, DecidableEq

/-- The JSON response of the watch route; `skipped` is absent in the
renewal path, modelled as `false`. -/
structure WatchResp where
  success : Bool
  historyId : Option Nat
  expiration : Option Nat
  skipped : Bool
deriving Repr, DecidableEq

/-- What one watch-route invocation did: the store afterwards, whether the
remote registration collaborator was invoked, and the response (`none`
models the 400 error response when registration threw). -/
structure WatchOutcome where
  store : IdentityStore
  registered : Bool
  resp : Option WatchResp
deriving Repr, DecidableEq

/-- The 1-hour validity buffer, in milliseconds. -/
def oneHour : Nat := 60 * 60 * 1000

/-- `user?.watchExpiration && user.watchExpiration > (now + oneHour)`. -/
def watchStillValid (u : UserRec) (now : Nat) : Bool :=
  match u.watchExpiration with
  | some e => now + oneHour < e
  | none => false

/-- The registration path shared by the missing-user and expiring cases:
call the collaborator; on failure answer 400 without touching the store, on
success persist both fields and answer with them. -/
def doRegister (store : IdentityStore) (register : Option RegResult)
    (email : String) : WatchOutcome :=
  match register with
  | none => ⟨store, true, none⟩
  | some r =>
    ⟨setWatch store email r.historyId r.expiration, true,
      some ⟨true, some r.historyId, some r.expiration, false⟩⟩

/-- The `POST /auth/watch` handler body for the authenticated identity
`email`, with the remote registration outcome as the `register` parameter:
skip (returning the stored pair, `skipped: true`) when the stored watch
expires more than one hour after `now`, otherwise register and persist. -/
def ensureWatch (store : IdentityStore) (now : Nat)
    (register : Option RegResult) (email : String) : WatchOutcome :=
  match findUser store email with
  | some u =>
    if watchStillValid u now then
      ⟨store, false, some ⟨true, u.lastHistoryId, u.watchExpiration, true⟩⟩
    else doRegister store register email
  | none => doRegister store register email

/-! ### Notification decoder -/

/-- The inner `message` field of a Pub/Sub envelope: the base64 payload
text (absent or empty counts as missing under the truthiness test of the
source) and the delivery id. -/
structure PubSubMessage where
  data : Option String
  messageId : String
deriving Repr, DecidableEq

/-- An inbound Pub/Sub envelope. -/
structure PubSubBody where
  message : Option PubSubMessage
deriving Repr, DecidableEq

/-- Fields the decoder projects from the parsed inner JSON; either may be
absent in the parsed object. -/
structure InnerData where
  emailAddress : Option String
  historyId : Option Nat
deriving Repr, DecidableEq

/-- What `decodeNotification` returns. -/
structure DecodedNote where
  emailAddress : Option String
  historyId : Option Nat
  messageId : String
deriving Repr, DecidableEq

/-- The two throw sites of the decoder: the explicit format check, and the
exception out of `JSON.parse`.  The §7 taxonomy classifies both as the
`MalformedNotification` kind: both escape the decoder as a decode-time
throw handled by one and the same catch. -/
inductive DecodeError where
  | invalidFormat
  | jsonParseError
deriving Repr, DecidableEq

/-- `decodeNotification(body)`, with the platform primitives as parameters:
`b64utf8` is `Buffer.from(s, 'base64').toString('utf-8')` (total: lenient
base64, replacement-character UTF-8 decoding) and `parse` is `JSON.parse`
followed by the field projection (`none` models a parse throw).  Pure: a
function of its arguments, no side effects. -/
def decodeNotification (b64utf8 : String → String)
    (parse : String → Option InnerData) (body : PubSubBody) :
    Except DecodeError DecodedNote :=
  match body.message with
  | none => .error .invalidFormat
  | some m =>
    match m.data with
    | none => .error .invalidFormat
    | some d =>
      if d = "" then .error .invalidFormat
      else
        match parse (b64utf8 d) with
        | none => .error .jsonParseError
        | some v => .ok ⟨v.emailAddress, v.historyId, m.messageId⟩

/-! ### Store lemmas -/

theorem findUser_setLastHistoryId (store : IdentityStore) (email : String) (hid : Nat)
    (u : UserRec) (hu : findUser store email = some u) :
    findUser (setLastHistoryId store email hid) email =
      some { u with lastHistoryId := some hid } := by
  induction store with
  | nil => simp [findUser] at hu
  | cons p rest ih =>
    obtain ⟨e, v⟩ := p
    by_cases h : e = email
    · subst h
      simp [findUser] at hu
      subst hu
      simp [setLastHistoryId, findUser]
    · simp [findUser, h] at hu
      simpa [setLastHistoryId, findUser, h] using ih hu

theorem setLastHistoryId_idem (store : IdentityStore) (email : String) (hid : Nat) :
    setLastHistoryId (setLastHistoryId store email hid) email hid =
      setLastHistoryId store email hid := by
  induction store with
  | nil => rfl
  | cons p rest ih =>
    obtain ⟨e, v⟩ := p
    by_cases h : e = email
    · subst h
      simp [setLastHistoryId]
    · simp [setLastHistoryId, h, ih]

theorem webhookGmail_ok_eq (store : IdentityStore)
    (gh : String → String → Nat → HistoryResult)
    (ge : String → String → String → Option Email)
    (n : GmailNote) (u : UserRec) (rs : List HistoryRecord)
    (hu : findUser store n.emailAddress = some u)
    (hh : gh u.googleAccessToken u.googleRefreshToken
        (startCursor u.lastHistoryId n.historyId) = .ok rs) :
    webhookGmail store gh ge n =
      ⟨setLastHistoryId store n.emailAddress n.historyId,
        if 0 < (((extractNewMessageIds rs).take 5).filterMap
            (ge u.googleAccessToken u.googleRefreshToken)).length then
          [(n.emailAddress, SSEEvent.emailNew
            (((extractNewMessageIds rs).take 5).filterMap
              (ge u.googleAccessToken u.googleRefreshToken)).length
            (((extractNewMessageIds rs).take 5).filterMap
              (ge u.googleAccessToken u.googleRefreshToken)))]
        else [],
        some (startCursor u.lastHistoryId n.historyId),
        (extractNewMessageIds rs).take 5⟩ := by
  unfold webhookGmail
  rw [hu]
  simp only []
  rw [hh]
  by_cases h : 0 < (extractNewMessageIds rs).length
  · simp [h]
  · have hz : extractNewMessageIds rs = [] := by
      cases hrs : extractNewMessageIds rs with
      | nil => rfl
      | cons a l => rw [hrs] at h; simp at h
    simp [h, hz]

theorem gmailHistorySince_empty_of_le (log : List (Nat × HistoryRecord)) (start : Nat)
    (h : ∀ p ∈ log, p.1 ≤ start) : gmailHistorySince log start = [] := by
  unfold gmailHistorySince
  have : log.filter (fun p => start < p.1) = [] := by
    rw [List.filter_eq_nil_iff]
    intro p hp
    simpa using Nat.not_lt.mpr (h p hp)
  rw [this]
  rfl

/-! ### Concrete fixtures used by the witnesses -/

/-- A one-row store: identity `a@x.com` with stored cursor 10. -/
def wStore : IdentityStore := [("a@x.com", ⟨"at", "rt", some 10, none⟩)]

/-- An added-message entry carrying the INBOX label. -/
def inboxMsg (i : String) : AddedEntry := ⟨⟨i, some ["INBOX"]⟩⟩

/-- A delta with 8 qualifying added inbox messages. -/
def capRecords : List HistoryRecord :=
  [⟨some [inboxMsg "m1", inboxMsg "m2", inboxMsg "m3", inboxMsg "m4",
    inboxMsg "m5", inboxMsg "m6", inboxMsg "m7", inboxMsg "m8"]⟩]

/-- A history collaborator that always answers with `capRecords`. -/
def capHistory : String → String → Nat → HistoryResult := fun _ _ _ => .ok capRecords

/-- A delta with two qualifying added inbox messages. -/
def twoRecords : List HistoryRecord := [⟨some [inboxMsg "m1", inboxMsg "m2"]⟩]

/-- A history collaborator that always answers with `twoRecords`. -/
def twoHistory : String → String → Nat → HistoryResult := fun _ _ _ => .ok twoRecords

/-- A message fetch that fails on every id. -/
def failFetch : String → String → String → Option Email := fun _ _ _ => none

/-- A message fetch that succeeds on every id. -/
def okFetch : String → String → String → Option Email := fun _ _ i => some ⟨i⟩

/-- A message fetch that succeeds only on id `m2`. -/
def onlyM2Fetch : String → String → String → Option Email :=
  fun _ _ i => if i = "m2" then some ⟨i⟩ else none

/-- A one-entry cumulative change log stamped at cursor 11. -/
def wLog : List (Nat × HistoryRecord) := [(11, ⟨some [inboxMsg "m1"]⟩)]

/-! ### Claims about the webhook handler -/

/-- C1: when the provider signals that the starting cursor is stale, the
run leaves the store untouched (so `lastHistoryId` keeps its prior value),
hands exactly one `email:sync_required` event for that identity to the
fan-out hub instead of a normal update, and fetches no messages, so no new
message ids are produced. -/
theorem staleCursor_leaves_cursor_and_sends_resync (store : IdentityStore)
    (gh : String → String → Nat → HistoryResult)
    (ge : String → String → String → Option Email)
    (n : GmailNote) (u : UserRec)
    (hu : findUser store n.emailAddress = some u)
    (hs : gh u.googleAccessToken u.googleRefreshToken
        (startCursor u.lastHistoryId n.historyId) = .stale) :
    webhookGmail store gh ge n =
      ⟨store, [(n.emailAddress, SSEEvent.syncRequired)],
        some (startCursor u.lastHistoryId n.historyId), []⟩ := by
  unfold webhookGmail
  rw [hu]
  simp only []
  rw [hs]

/-- Concrete run of the stale-cursor path. -/
theorem staleCursor_witness :
    webhookGmail wStore (fun _ _ _ => .stale) failFetch ⟨"a@x.com", 11⟩ =
      ⟨wStore, [("a@x.com", SSEEvent.syncRequired)], some 10, []⟩ :=
  staleCursor_leaves_cursor_and_sends_resync wStore (fun _ _ _ => .stale) failFetch
    ⟨"a@x.com", 11⟩ ⟨"at", "rt", some 10, none⟩ rfl rfl

/-- C2: on a non-stale run whose delta yields more than 5 qualifying added
inbox ids, exactly the first 5 ids in delta order are passed to the message
fetch, and — for every fetch collaborator `ge`, including ones that fail on
any subset of messages — the run still completes with the stored cursor
advanced to the notification's historyId. -/
theorem cap_five_fetch_and_cursor_advance (store : IdentityStore)
    (gh : String → String → Nat → HistoryResult)
    (ge : String → String → String → Option Email)
    (n : GmailNote) (u : UserRec) (rs : List HistoryRecord)
    (hu : findUser store n.emailAddress = some u)
    (hh : gh u.googleAccessToken u.googleRefreshToken
        (startCursor u.lastHistoryId n.historyId) = .ok rs)
    (hlen : 5 < (extractNewMessageIds rs).length) :
    (webhookGmail store gh ge n).fetched = (extractNewMessageIds rs).take 5 ∧
    (webhookGmail store gh ge n).fetched.length = 5 ∧
    (webhookGmail store gh ge n).store = setLastHistoryId store n.emailAddress n.historyId ∧
    findUser (webhookGmail store gh ge n).store n.emailAddress =
      some { u with lastHistoryId := some n.historyId } := by
  rw [webhookGmail_ok_eq store gh ge n u rs hu hh]
  refine ⟨rfl, ?_, rfl, findUser_setLastHistoryId store n.emailAddress n.historyId u hu⟩
  simp only [List.length_take]
  omega

/-- Concrete run of the cap: 8 qualifying ids, an always-failing fetch,
cursor still advanced. -/
theorem cap_five_witness :
    (webhookGmail wStore capHistory failFetch ⟨"a@x.com", 11⟩).fetched =
      ["m1", "m2", "m3", "m4", "m5"] ∧
    findUser (webhookGmail wStore capHistory failFetch ⟨"a@x.com", 11⟩).store "a@x.com" =
      some ⟨"at", "rt", some 11, none⟩ := by
  have h := cap_five_fetch_and_cursor_advance wStore capHistory failFetch ⟨"a@x.com", 11⟩
    ⟨"at", "rt", some 10, none⟩ capRecords rfl rfl (by decide)
  exact ⟨h.1.trans (by decide), h.2.2.2⟩

/-- C9: a notification for an email address with no Identity Store row is a
complete no-op: the store is unchanged, no history query and no message
fetch is attempted, and no event is handed to the fan-out hub. -/
theorem unknown_identity_no_effect (store : IdentityStore)
    (gh : String → String → Nat → HistoryResult)
    (ge : String → String → String → Option Email)
    (n : GmailNote)
    (hn : findUser store n.emailAddress = none) :
    webhookGmail store gh ge n = ⟨store, [], none, []⟩ := by
  unfold webhookGmail
  rw [hn]

/-- Concrete run of the unknown-identity path. -/
theorem unknown_identity_witness :
    webhookGmail wStore twoHistory okFetch ⟨"b@x.com", 11⟩ = ⟨wStore, [], none, []⟩ :=
  unknown_identity_no_effect wStore twoHistory okFetch ⟨"b@x.com", 11⟩ rfl

/-- C10: on a non-stale run, the `email:new` event is emitted exactly when
at least one message fetch succeeded, carrying as count the number of
successfully fetched emails; that count is at most 5; and whether or not
the event is emitted (zero qualifying ids, or every fetch failing), the
stored cursor advances. -/
theorem emailNew_emission_spec (store : IdentityStore)
    (gh : String → String → Nat → HistoryResult)
    (ge : String → String → String → Option Email)
    (n : GmailNote) (u : UserRec) (rs : List HistoryRecord)
    (hu : findUser store n.emailAddress = some u)
    (hh : gh u.googleAccessToken u.googleRefreshToken
        (startCursor u.lastHistoryId n.historyId) = .ok rs) :
    (webhookGmail store gh ge n).events =
      (if 0 < (((extractNewMessageIds rs).take 5).filterMap
          (ge u.googleAccessToken u.googleRefreshToken)).length then
        [(n.emailAddress, SSEEvent.emailNew
          (((extractNewMessageIds rs).take 5).filterMap
            (ge u.googleAccessToken u.googleRefreshToken)).length
          (((extractNewMessageIds rs).take 5).filterMap
            (ge u.googleAccessToken u.googleRefreshToken)))]
      else []) ∧
    (((extractNewMessageIds rs).take 5).filterMap
      (ge u.googleAccessToken u.googleRefreshToken)).length ≤ 5 ∧
    (webhookGmail store gh ge n).store = setLastHistoryId store n.emailAddress n.historyId := by
  rw [webhookGmail_ok_eq store gh ge n u rs hu hh]
  refine ⟨rfl, ?_, rfl⟩
  calc (((extractNewMessageIds rs).take 5).filterMap
      (ge u.googleAccessToken u.googleRefreshToken)).length
      ≤ ((extractNewMessageIds rs).take 5).length := List.length_filterMap_le _ _
    _ ≤ 5 := by simp [List.length_take]

/-- Concrete run: two qualifying ids, fetch fails on the first and succeeds
on the second, so `email:new` carries count 1, and the cursor advances. -/
theorem emailNew_emission_witness :
    (webhookGmail wStore twoHistory onlyM2Fetch ⟨"a@x.com", 11⟩).events =
      [("a@x.com", SSEEvent.emailNew 1 [⟨"m2"⟩])] ∧
    (webhookGmail wStore twoHistory onlyM2Fetch ⟨"a@x.com", 11⟩).store =
      [("a@x.com", ⟨"at", "rt", some 11, none⟩)] := by
  have h := emailNew_emission_spec wStore twoHistory onlyM2Fetch ⟨"a@x.com", 11⟩
    ⟨"at", "rt", some 10, none⟩ twoRecords rfl rfl
  exact ⟨h.1.trans (by decide), h.2.2.trans (by decide)⟩

/-- C4: replaying the identical notification immediately after a first run
against a cumulative provider change log whose every entry is stamped at or
before the notification's historyId is a no-op: the second run queries from
the freshly stored cursor, fetches nothing, emits nothing, and re-writes
the cursor to the very same value, leaving the store exactly as after the
first run (where the cursor equals the notification's historyId). -/
theorem identical_replay_idempotent (store : IdentityStore)
    (log : List (Nat × HistoryRecord))
    (ge : String → String → String → Option Email)
    (n : GmailNote) (u : UserRec)
    (hu : findUser store n.emailAddress = some u)
    (hlog : ∀ p ∈ log, p.1 ≤ n.historyId) :
    webhookGmail (webhookGmail store (logHistory log) ge n).store (logHistory log) ge n =
      ⟨(webhookGmail store (logHistory log) ge n).store, [], some n.historyId, []⟩ ∧
    findUser (webhookGmail store (logHistory log) ge n).store n.emailAddress =
      some { u with lastHistoryId := some n.historyId } := by
  have h1 : (webhookGmail store (logHistory log) ge n).store =
      setLastHistoryId store n.emailAddress n.historyId := by
    rw [webhookGmail_ok_eq store (logHistory log) ge n u
      (gmailHistorySince log (startCursor u.lastHistoryId n.historyId)) hu rfl]
  have h2 : findUser (setLastHistoryId store n.emailAddress n.historyId) n.emailAddress =
      some { u with lastHistoryId := some n.historyId } :=
    findUser_setLastHistoryId store n.emailAddress n.historyId u hu
  have hsince : gmailHistorySince log n.historyId = [] :=
    gmailHistorySince_empty_of_le log n.historyId hlog
  refine ⟨?_, h1 ▸ h2⟩
  rw [h1]
  rw [webhookGmail_ok_eq (setLastHistoryId store n.emailAddress n.historyId)
    (logHistory log) ge n { u with lastHistoryId := some n.historyId } [] h2
    (by simp only [logHistory, startCursor, Option.getD]; rw [hsince])]
  simp [extractNewMessageIds, setLastHistoryId_idem, startCursor]

/-- Concrete replay: a log with one record at stamp 11, notification
historyId 11; the second run re-writes cursor 11 and does nothing else. -/
theorem identical_replay_witness :
    webhookGmail (webhookGmail wStore (logHistory wLog) okFetch ⟨"a@x.com", 11⟩).store
        (logHistory wLog) okFetch ⟨"a@x.com", 11⟩ =
      ⟨(webhookGmail wStore (logHistory wLog) okFetch ⟨"a@x.com", 11⟩).store,
        [], some 11, []⟩ := by
  have h := identical_replay_idempotent wStore wLog okFetch ⟨"a@x.com", 11⟩
    ⟨"at", "rt", some 10, none⟩ rfl (by decide)
  exact h.1

/-! ### Fan-out hub lemmas -/

theorem writeLoop_eq (m : String) (cs : List Channel) (acc : List (Nat × String)) :
    writeLoop m cs acc =
      if (cs.takeWhile (fun c => !c.writeFails)).length = cs.length then
        SendResult.ret (acc.reverse ++ (cs.takeWhile (fun c => !c.writeFails)).map
          (fun c => (c.cid, m))) true
      else
        SendResult.thrown (acc.reverse ++ (cs.takeWhile (fun c => !c.writeFails)).map
          (fun c => (c.cid, m))) := by
  induction cs generalizing acc with
  | nil => simp [writeLoop]
  | cons c rest ih =>
    by_cases hf : c.writeFails
    · simp [writeLoop, hf, List.takeWhile_cons]
    · simp [writeLoop, hf, List.takeWhile_cons, ih]

theorem sendToUser_eq (conns : Connections) (email event data : String)
    (cs : List Channel) (h : lookupConns conns email = some cs) (hne : cs ≠ []) :
    sendToUser conns email event data =
      if (cs.takeWhile (fun c => !c.writeFails)).length = cs.length then
        SendResult.ret ((cs.takeWhile (fun c => !c.writeFails)).map
          (fun c => (c.cid, sseMessage event data))) true
      else
        SendResult.thrown ((cs.takeWhile (fun c => !c.writeFails)).map
          (fun c => (c.cid, sseMessage event data))) := by
  unfold sendToUser
  rw [h]
  simp only []
  rw [if_neg (by simpa using hne)]
  rw [writeLoop_eq]
  simp

theorem sendToUser_delivered_eq (conns : Connections) (email event data : String)
    (cs : List Channel) (h : lookupConns conns email = some cs) (hne : cs ≠ []) :
    (sendToUser conns email event data).delivered =
      (cs.takeWhile (fun c => !c.writeFails)).map Channel.cid := by
  rw [sendToUser_eq conns email event data cs h hne]
  by_cases hc : (cs.takeWhile (fun c => !c.writeFails)).length = cs.length
  · rw [if_pos hc]
    simp [SendResult.delivered]
  · rw [if_neg hc]
    simp [SendResult.delivered]

/-! ### Claims about the fan-out hub -/

/-- C7: `sendToUser` delivers only to channels registered under the target
identity (every delivered channel id comes from that identity's registered
set); under the registry invariant that a channel belongs to a single
identity's set, no channel of any other identity receives anything; and the
call returns `false` — with no write performed and no exception — exactly
when the identity has no registered channel set or an empty one. -/
theorem sendToUser_targeting_and_empty (conns : Connections) (email event data : String) :
    (∀ w ∈ (sendToUser conns email event data).delivered,
      ∃ cs, lookupConns conns email = some cs ∧ w ∈ cs.map Channel.cid) ∧
    (∀ other cs', other ≠ email → lookupConns conns other = some cs' →
      (∀ x ∈ cs', ∀ cs, lookupConns conns email = some cs → x.cid ∉ cs.map Channel.cid) →
      ∀ w ∈ (sendToUser conns email event data).delivered, w ∉ cs'.map Channel.cid) ∧
    (sendToUser conns email event data = .ret [] false ↔
      (lookupConns conns email = none ∨ lookupConns conns email = some [])) := by
  have hA : ∀ w ∈ (sendToUser conns email event data).delivered,
      ∃ cs, lookupConns conns email = some cs ∧ w ∈ cs.map Channel.cid := by
    intro w hw
    cases hl : lookupConns conns email with
    | none =>
      unfold sendToUser at hw
      rw [hl] at hw
      simp [SendResult.delivered] at hw
    | some cs =>
      refine ⟨cs, rfl, ?_⟩
      by_cases hne : cs = []
      · subst hne
        unfold sendToUser at hw
        rw [hl] at hw
        simp [SendResult.delivered] at hw
      · rw [sendToUser_delivered_eq conns email event data cs hl hne] at hw
        obtain ⟨x, hx, hxw⟩ := List.exists_of_mem_map hw
        exact hxw ▸ List.mem_map_of_mem Channel.cid ((cs.takeWhile_sublist _).subset hx)
  refine ⟨hA, ?_, ?_⟩
  · intro other cs' hother hl' hdisj w hw hwcs'
    obtain ⟨cs, hl, hwcs⟩ := hA w hw
    obtain ⟨x, hx, hxw⟩ := List.exists_of_mem_map hwcs'
    exact hdisj x hx cs hl (hxw ▸ hwcs)
  · constructor
    · intro hr
      cases hl : lookupConns conns email with
      | none => exact Or.inl rfl
      | some cs =>
        by_cases hne : cs = []
        · exact Or.inr (hne ▸ hl ▸ rfl)
        · exfalso
          rw [sendToUser_eq conns email event data cs hl hne] at hr
          by_cases hc : (cs.takeWhile (fun c => !c.writeFails)).length = cs.length
          · rw [if_pos hc] at hr
            exact Bool.false_ne_true (SendResult.ret.inj hr).2.symm
          · rw [if_neg hc] at hr
            exact SendResult.noConfusion hr
    · intro h
      cases h with
      | inl h => unfold sendToUser; rw [h]
      | inr h => unfold sendToUser; rw [h]; simp

/-- Concrete fan-out: two identities; a send to `a@x.com` writes to both of
its channels and none of `b@x.com`; a send to an identity with no channels
returns `false`. -/
theorem sendToUser_targeting_witness :
    (sendToUser [("a@x.com", [⟨1, false⟩, ⟨2, false⟩]), ("b@x.com", [⟨3, false⟩])]
      "a@x.com" "email:new" "d").delivered = [1, 2] ∧
    3 ∉ (sendToUser [("a@x.com", [⟨1, false⟩, ⟨2, false⟩]), ("b@x.com", [⟨3, false⟩])]
      "a@x.com" "email:new" "d").delivered ∧
    sendToUser [("a@x.com", [⟨1, false⟩, ⟨2, false⟩]), ("b@x.com", [⟨3, false⟩])]
      "c@x.com" "email:new" "d" = .ret [] false := by
  have h := sendToUser_targeting_and_empty
    [("a@x.com", [⟨1, false⟩, ⟨2, false⟩]), ("b@x.com", [⟨3, false⟩])] "c@x.com"
    "email:new" "d"
  refine ⟨by decide, by decide, h.2.2.mpr (Or.inl (by decide))⟩

/-- C3 counterexample: identity `a@x.com` holds two channels; the write to
channel 1 throws; the exception escapes `sendToUser`, channel 2 receives
nothing, and `true` is not returned — the claim fails on this input. -/
theorem sendToUser_failure_counterexample :
    sendToUser [("a@x.com", [⟨1, true⟩, ⟨2, false⟩])] "a@x.com" "email:new" "d" =
      SendResult.thrown [] ∧
    (sendToUser [("a@x.com", [⟨1, true⟩, ⟨2, false⟩])] "a@x.com" "email:new" "d").returnedTrue
      = false ∧
    2 ∉ (sendToUser [("a@x.com", [⟨1, true⟩, ⟨2, false⟩])] "a@x.com" "email:new" "d").delivered
    := by
  refine ⟨by decide, by decide, by decide⟩

/-- C3 amended: the write loop has no exception guard, so `sendToUser`
delivers, in registration order, exactly to the channels before the first
failing write; when no write fails it delivers to every channel of the
identity and returns `true`, and when some write fails the exception
propagates and the remaining channels receive nothing. -/
theorem sendToUser_write_failure_behavior (conns : Connections)
    (email event data : String) (cs : List Channel)
    (h : lookupConns conns email = some cs) (hne : cs ≠ []) :
    sendToUser conns email event data =
      if (cs.takeWhile (fun c => !c.writeFails)).length = cs.length then
        SendResult.ret ((cs.takeWhile (fun c => !c.writeFails)).map
          (fun c => (c.cid, sseMessage event data))) true
      else
        SendResult.thrown ((cs.takeWhile (fun c => !c.writeFails)).map
          (fun c => (c.cid, sseMessage event data))) :=
  sendToUser_eq conns email event data cs h hne

/-- Concrete run of the amended statement: with the failing channel first,
nothing is delivered and the exception escapes. -/
theorem sendToUser_write_failure_witness :
    sendToUser [("a@x.com", [⟨1, true⟩, ⟨2, false⟩])] "a@x.com" "email:new" "d" =
      SendResult.thrown [] := by
  have h := sendToUser_write_failure_behavior
    [("a@x.com", [⟨1, true⟩, ⟨2, false⟩])] "a@x.com" "email:new" "d"
    [⟨1, true⟩, ⟨2, false⟩] rfl (by decide)
  exact h.trans (by decide)

/-! ### Close-handler lemmas -/

theorem lookupConns_eq_none (conns : Connections) (email : String)
    (h : email ∉ conns.map Prod.fst) : lookupConns conns email = none := by
  induction conns with
  | nil => rfl
  | cons p rest ih =>
    obtain ⟨e, cs⟩ := p
    simp only [List.map_cons, List.mem_cons] at h
    push_neg at h
    rw [lookupConns]
    rw [if_neg (fun he => h.1 he.symm)]
    exact ih h.2

theorem lookupConns_removeEntry (conns : Connections) (email : String)
    (hnd : (conns.map Prod.fst).Nodup) :
    lookupConns (removeEntry conns email) email = none := by
  induction conns with
  | nil => rfl
  | cons p rest ih =>
    obtain ⟨e, cs⟩ := p
    simp only [List.map_cons, List.nodup_cons] at hnd
    by_cases h : e = email
    · subst h
      rw [removeEntry]
      rw [if_pos rfl]
      exact lookupConns_eq_none rest e hnd.1
    · rw [removeEntry]
      rw [if_neg h]
      rw [lookupConns]
      rw [if_neg h]
      exact ih hnd.2

theorem lookupConns_updateEntry (conns : Connections) (email : String)
    (cs0 cs : List Channel) (h : lookupConns conns email = some cs0) :
    lookupConns (updateEntry conns email cs) email = some cs := by
  induction conns with
  | nil => simp [lookupConns] at h
  | cons p rest ih =>
    obtain ⟨e, v⟩ := p
    by_cases he : e = email
    · subst he
      rw [updateEntry, if_pos rfl, lookupConns, if_pos rfl]
    · rw [lookupConns, if_neg he] at h
      rw [updateEntry, if_neg he, lookupConns, if_neg he]
      exact ih h

theorem updateEntry_idem (conns : Connections) (email : String) (cs : List Channel) :
    updateEntry (updateEntry conns email cs) email cs = updateEntry conns email cs := by
  induction conns with
  | nil => rfl
  | cons p rest ih =>
    obtain ⟨e, v⟩ := p
    by_cases he : e = email
    · subst he
      rw [updateEntry, if_pos rfl, updateEntry, if_pos rfl]
    · rw [updateEntry, if_neg he, updateEntry, if_neg he, ih]

theorem closeChannel_eq_none (st : SSEState) (email : String) (c : Channel)
    (h : lookupConns st.connections email = none) :
    closeChannel st email c = ⟨st.connections, st.timers.filter (fun t => t ≠ c.cid)⟩ := by
  unfold closeChannel
  rw [h]

theorem closeChannel_eq_some (st : SSEState) (email : String) (c : Channel)
    (cs : List Channel) (h : lookupConns st.connections email = some cs) :
    closeChannel st email c =
      ⟨if (cs.filter (fun x => x ≠ c)).length = 0 then removeEntry st.connections email
        else updateEntry st.connections email (cs.filter (fun x => x ≠ c)),
        st.timers.filter (fun t => t ≠ c.cid)⟩ := by
  unfold closeChannel
  rw [h]
  simp only []
  by_cases hz : (cs.filter (fun x => x ≠ c)).length = 0
  · rw [if_pos hz, if_pos hz]
  · rw [if_neg hz, if_neg hz]

/-! ### Claim about connection teardown -/

/-- C8: on a registry whose identity keys are distinct (the `Map`
invariant), running the close handler twice for the same channel leaves the
state exactly as running it once — no double-unregistration, and being a
total function of the state, no throw — the keep-alive timer of the channel
is cancelled, and when removing the channel empties the identity's set the
identity's entry itself is gone. -/
theorem closeChannel_idem (st : SSEState) (email : String) (c : Channel)
    (hnd : (st.connections.map Prod.fst).Nodup) :
    closeChannel (closeChannel st email c) email c = closeChannel st email c ∧
    c.cid ∉ (closeChannel st email c).timers ∧
    (∀ cs, lookupConns st.connections email = some cs →
      cs.filter (fun x => x ≠ c) = [] →
      lookupConns (closeChannel st email c).connections email = none) := by
  have hTT : (st.timers.filter (fun t => t ≠ c.cid)).filter (fun t => t ≠ c.cid) =
      st.timers.filter (fun t => t ≠ c.cid) := by
    rw [List.filter_filter]
    simp
  refine ⟨?_, ?_, ?_⟩
  · cases hl : lookupConns st.connections email with
    | none =>
      have e1 : closeChannel st email c =
          ⟨st.connections, st.timers.filter (fun t => t ≠ c.cid)⟩ :=
        closeChannel_eq_none st email c hl
      rw [e1, closeChannel_eq_none
        ⟨st.connections, st.timers.filter (fun t => t ≠ c.cid)⟩ email c hl, hTT]
    | some cs =>
      by_cases hz : (cs.filter (fun x => x ≠ c)).length = 0
      · have e1 : closeChannel st email c =
            ⟨removeEntry st.connections email, st.timers.filter (fun t => t ≠ c.cid)⟩ := by
          rw [closeChannel_eq_some st email c cs hl, if_pos hz]
        rw [e1, closeChannel_eq_none
          ⟨removeEntry st.connections email, st.timers.filter (fun t => t ≠ c.cid)⟩ email c
          (lookupConns_removeEntry st.connections email hnd), hTT]
      · have hff : (cs.filter (fun x => x ≠ c)).filter (fun x => x ≠ c) =
            cs.filter (fun x => x ≠ c) := by
          rw [List.filter_filter]
          simp
        have e1 : closeChannel st email c =
            ⟨updateEntry st.connections email (cs.filter (fun x => x ≠ c)),
              st.timers.filter (fun t => t ≠ c.cid)⟩ := by
          rw [closeChannel_eq_some st email c cs hl, if_neg hz]
        rw [e1, closeChannel_eq_some
          ⟨updateEntry st.connections email (cs.filter (fun x => x ≠ c)),
            st.timers.filter (fun t => t ≠ c.cid)⟩ email c (cs.filter (fun x => x ≠ c))
          (lookupConns_updateEntry st.connections email cs (cs.filter (fun x => x ≠ c)) hl)]
        rw [hff, if_neg hz, updateEntry_idem, hTT]
  · cases hl : lookupConns st.connections email with
    | none =>
      rw [closeChannel_eq_none st email c hl]
      simp
    | some cs =>
      rw [closeChannel_eq_some st email c cs hl]
      simp
  · intro cs hl hcf
    rw [closeChannel_eq_some st email c cs hl]
    simp only []
    rw [if_pos (by rw [hcf]; rfl)]
    exact lookupConns_removeEntry st.connections email hnd

/-- Concrete double close: one identity with a single channel; after the
first close the entry is gone, the timer is cancelled, and a second close
changes nothing. -/
theorem closeChannel_witness :
    closeChannel (closeChannel ⟨[("a@x.com", [⟨1, false⟩])], [1]⟩ "a@x.com" ⟨1, false⟩)
        "a@x.com" ⟨1, false⟩ =
      closeChannel ⟨[("a@x.com", [⟨1, false⟩])], [1]⟩ "a@x.com" ⟨1, false⟩ ∧
    lookupConns (closeChannel ⟨[("a@x.com", [⟨1, false⟩])], [1]⟩ "a@x.com"
      ⟨1, false⟩).connections "a@x.com" = none := by
  have h := closeChannel_idem ⟨[("a@x.com", [⟨1, false⟩])], [1]⟩ "a@x.com" ⟨1, false⟩
    (by decide)
  exact ⟨h.1, h.2.2 [⟨1, false⟩] rfl (by decide)⟩

/-! ### Claim about watch registration -/

/-- C5: when the stored `watchExpiration` lies more than one hour past
`now`, the watch route answers from the store — remote registration is not
invoked, the store is untouched, and the response carries the stored
`(lastHistoryId, watchExpiration)` with `skipped: true`; otherwise the
remote registration is invoked, and on its success both returned fields are
persisted for that identity and echoed in the response. -/
theorem ensureWatch_skip_or_register (store : IdentityStore) (now : Nat)
    (register : Option RegResult) (email : String) (u : UserRec)
    (hu : findUser store email = some u) :
    (∀ e, u.watchExpiration = some e → now + oneHour < e →
      ensureWatch store now register email =
        ⟨store, false, some ⟨true, u.lastHistoryId, some e, true⟩⟩) ∧
    (watchStillValid u now = false →
      (ensureWatch store now register email).registered = true ∧
      ∀ r, register = some r →
        ensureWatch store now register email =
          ⟨setWatch store email r.historyId r.expiration, true,
            some ⟨true, some r.historyId, some r.expiration, false⟩⟩) := by
  constructor
  · intro e he hlt
    have hv : watchStillValid u now = true := by
      unfold watchStillValid
      rw [he]
      simpa using hlt
    unfold ensureWatch
    rw [hu]
    simp only [hv, if_true]
    rw [he]
  · intro hv
    have hred : ensureWatch store now register email = doRegister store register email := by
      unfold ensureWatch
      rw [hu]
      simp only [hv]
      rfl
    refine ⟨?_, ?_⟩
    · rw [hred]
      cases register <;> rfl
    · intro r hr
      rw [hred, hr]
      rfl

/-- Concrete watch runs: expiration two hours out is skipped untouched;
expiration thirty minutes out triggers registration and persists the new
`(historyId, expiration)`. -/
theorem ensureWatch_witness :
    ensureWatch [("a@x.com", ⟨"at", "rt", some 10, some 7200000⟩)] 0
        (some ⟨99, 123⟩) "a@x.com" =
      ⟨[("a@x.com", ⟨"at", "rt", some 10, some 7200000⟩)], false,
        some ⟨true, some 10, some 7200000, true⟩⟩ ∧
    ensureWatch [("a@x.com", ⟨"at", "rt", some 10, some 1800000⟩)] 0
        (some ⟨99, 123⟩) "a@x.com" =
      ⟨[("a@x.com", ⟨"at", "rt", some 99, some 123⟩)], true,
        some ⟨true, some 99, some 123, false⟩⟩ := by
  have h1 := ensureWatch_skip_or_register
    [("a@x.com", ⟨"at", "rt", some 10, some 7200000⟩)] 0 (some ⟨99, 123⟩) "a@x.com"
    ⟨"at", "rt", some 10, some 7200000⟩ rfl
  have h2 := ensureWatch_skip_or_register
    [("a@x.com", ⟨"at", "rt", some 10, some 1800000⟩)] 0 (some ⟨99, 123⟩) "a@x.com"
    ⟨"at", "rt", some 10, some 1800000⟩ rfl
  refine ⟨h1.1 7200000 rfl (by decide), ?_⟩
  exact ((h2.2 (by decide)).2 ⟨99, 123⟩ rfl).trans (by decide)

/-! ### Claim about the notification decoder -/

/-- C6: the decoder — a pure function of the envelope in this embedding —
throws the format error when the nested payload field is missing (or empty,
which the truthiness test also rejects), surfaces a failing inner decode
(`JSON.parse` of the transported payload, covering non-UTF-8 and non-JSON
inputs) as the other decode-time throw of the same `MalformedNotification`
kind handled by the same catch, and on every well-formed envelope succeeds,
projecting the identity, the cursor hint, and the delivery id. -/
theorem decodeNotification_spec (b64utf8 : String → String)
    (parse : String → Option InnerData) (body : PubSubBody) :
    (body.message = none → decodeNotification b64utf8 parse body = .error .invalidFormat) ∧
    (∀ m, body.message = some m → (m.data = none ∨ m.data = some "") →
      decodeNotification b64utf8 parse body = .error .invalidFormat) ∧
    (∀ m d, body.message = some m → m.data = some d → d ≠ "" →
      parse (b64utf8 d) = none →
      decodeNotification b64utf8 parse body = .error .jsonParseError) ∧
    (∀ m d v, body.message = some m → m.data = some d → d ≠ "" →
      parse (b64utf8 d) = some v →
      decodeNotification b64utf8 parse body =
        .ok ⟨v.emailAddress, v.historyId, m.messageId⟩) := by
  refine ⟨?_, ?_, ?_, ?_⟩
  · intro h
    unfold decodeNotification
    rw [h]
  · intro m hm hd
    unfold decodeNotification
    rw [hm]
    simp only []
    cases hd with
    | inl h => rw [h]
    | inr h =>
      rw [h]
      simp
  · intro m d hm hd hne hp
    unfold decodeNotification
    rw [hm]
    simp only []
    rw [hd]
    simp only []
    rw [if_neg hne, hp]
  · intro m d v hm hd hne hp
    unfold decodeNotification
    rw [hm]
    simp only []
    rw [hd]
    simp only []
    rw [if_neg hne, hp]

/-- A concrete stand-in for the platform parse chain: only the payload
`x` parses, to an object with both fields. -/
def wParse : String → Option InnerData :=
  fun s => if s = "x" then some ⟨some "a@x.com", some 5⟩ else none

/-- Concrete decoder runs: missing envelope field, missing payload, an
unparsable payload, and a well-formed envelope. -/
theorem decodeNotification_witness :
    decodeNotification id wParse ⟨none⟩ = .error .invalidFormat ∧
    decodeNotification id wParse ⟨some ⟨none, "d1"⟩⟩ = .error .invalidFormat ∧
    decodeNotification id wParse ⟨some ⟨some "zz", "d2"⟩⟩ = .error .jsonParseError ∧
    decodeNotification id wParse ⟨some ⟨some "x", "d3"⟩⟩ =
      .ok ⟨some "a@x.com", some 5, "d3"⟩ := by
  refine ⟨(decodeNotification_spec id wParse ⟨none⟩).1 rfl,
    (decodeNotification_spec id wParse ⟨some ⟨none, "d1"⟩⟩).2.1 ⟨none, "d1"⟩ rfl (Or.inl rfl),
    (decodeNotification_spec id wParse ⟨some ⟨some "zz", "d2"⟩⟩).2.2.1 ⟨some "zz", "d2"⟩ "zz"
      rfl rfl (by decide) (by decide),
    (decodeNotification_spec id wParse ⟨some ⟨some "x", "d3"⟩⟩).2.2.2 ⟨some "x", "d3"⟩ "x"
      ⟨some "a@x.com", some 5⟩ rfl rfl (by decide) (by decide)⟩

end Luma
